import Mathlib

/-!
# Verification of the face-blurring Lambda (`blur_faces/app.py`)

A shallow embedding of the per-record anonymization pipeline: the two
pixel-region anonymization algorithms (`anonymize_face_simple`,
`anonymize_face_pixelate`), the record-processing state machine of
`lambda_handler`, and the partial-failure bookkeeping (`add_failed`).

Conventions of the embedding:
* An image (`ImageBuffer`) is a row-major list of rows of 3-channel pixels
  (`Pixel = (B, G, R)` with `Nat` channels, as produced by `cv2.imread`).
* In-place numpy/OpenCV mutation becomes functional update.
* Raising an uncaught Python exception becomes `Except.error` of a
  `RuntimeErr`; the external collaborators (S3 download/upload, Rekognition,
  `cv2.imread`) are injected through an `Env` record of functions, mirroring
  the boto3/cv2 client calls at their interface boundary.
* Python `int()` truncation on a nonnegative quotient is `Int.tdiv`
  (truncation toward zero); Python `%` on a positive modulus is `Int.emod`.
-/

/-- One 3-channel pixel, in the (B, G, R) channel order used by OpenCV. -/
abbrev Pixel := Nat × Nat × Nat

/-- A mutable 2-D pixel grid (numpy `ndarray` of shape (h, w, 3)),
embedded as a row-major list of rows. -/
abbrev ImageBuffer := List (List Pixel)

/-- `image.shape[0]`: number of rows. -/
def imgHeight (img : ImageBuffer) : Nat := img.length

/-- `image.shape[1]`: number of columns (of the first row; all rows of a
numpy array have equal length). -/
def imgWidth (img : ImageBuffer) : Nat := (img.headD []).length

/-- Pixel lookup `img[y][x]`, defaulting to black outside the grid
(lookups in the development are always in range). -/
def getPixel (img : ImageBuffer) (y x : Nat) : Pixel :=
  (img.getD y []).getD x (0, 0, 0)

/-- A structurally recursive indexed map (used to model writes addressed by
row/column index into a numpy array). -/
def mapWithIdx (f : Nat → α → β) : Nat → List α → List β
  | _, [] => []
  | k, a :: as => f k a :: mapWithIdx f (k + 1) as

/-- `all`-rows-of-one-color image, used to state flat-region facts. -/
def flatImage (h w : Nat) (v : Pixel) : ImageBuffer :=
  List.replicate h (List.replicate w v)

/-! ## Pieces of numpy / OpenCV used by the source, at their interface -/

/-- `np.linspace(0, len, blocks + 1, dtype="int")[i]`: the `i`-th evenly
spaced boundary, truncated to an integer.  In exact arithmetic this is
`⌊i * len / blocks⌋`; numpy evaluates the interpolation in floating point,
which agrees with the exact value on all inputs used in this development. -/
def linspaceInt (len blocks i : Nat) : Nat := i * len / blocks

/-- `cv2.mean(roi)[:3]` followed by `int(...)` on each channel: the
per-channel arithmetic mean over a list of pixels, truncated.  `cv2.mean`
of an empty region returns the zero scalar, which coincides with `Nat`
division by zero. -/
def cvMean3 (ps : List Pixel) : Pixel :=
  ((ps.map (fun p => p.1)).sum / ps.length,
   (ps.map (fun p => p.2.1)).sum / ps.length,
   (ps.map (fun p => p.2.2)).sum / ps.length)

/-- The pixels of the slice `img[sy:ey, sx:ex]` (numpy half-open slicing,
clipped at the array bounds), flattened row-major. -/
def roiPixels (img : ImageBuffer) (sy ey sx ex : Nat) : List Pixel :=
  (((img.drop sy).take (ey - sy)).map
    (fun row => (row.drop sx).take (ex - sx))).flatten

/-- `cv2.rectangle(img, (sx, sy), (ex, ey), color, -1)`: a filled rectangle.
OpenCV fills **inclusively** of both corner points, clipping to the image;
so every pixel with `sx ≤ x ≤ ex` and `sy ≤ y ≤ ey` is overwritten. -/
def rectangleFill (img : ImageBuffer) (sx sy ex ey : Nat) (c : Pixel) :
    ImageBuffer :=
  mapWithIdx
    (fun y row =>
      if sy ≤ y ∧ y ≤ ey then
        mapWithIdx (fun x p => if sx ≤ x ∧ x ≤ ex then c else p) 0 row
      else row)
    0 img

/-! ## `anonymize_face_pixelate` (`app.py` lines 56–96) -/

/-- One iteration of the double loop of `anonymize_face_pixelate` for the
grid cell `(i, j)` (`1 ≤ i, j ≤ blocks`): slice the ROI strictly inside the
cell, take its truncated mean, and draw the filled rectangle (inclusive of
the end boundary, as `cv2.rectangle` does) over the cell. -/
def pixelateCell (blocks h w : Nat) (img : ImageBuffer) (i j : Nat) :
    ImageBuffer :=
  let startX := linspaceInt w blocks (j - 1)
  let endX := linspaceInt w blocks j
  let startY := linspaceInt h blocks (i - 1)
  let endY := linspaceInt h blocks i
  let roi := roiPixels img startY endY startX endX
  rectangleFill img startX startY endX endY (cvMean3 roi)

/-- `anonymize_face_pixelate(image, blocks)`: partition the image into a
`blocks × blocks` grid by `np.linspace` boundaries and flatten each cell to
its mean color, iterating rows outer / columns inner in increasing order. -/
def anonymize_face_pixelate (image : ImageBuffer) (blocks : Nat) :
    ImageBuffer :=
  let h := imgHeight image
  let w := imgWidth image
  ((List.range blocks).map (· + 1)).foldl
    (fun img i =>
      ((List.range blocks).map (· + 1)).foldl
        (fun img2 j => pixelateCell blocks h w img2 i j) img)
    image

/-! ## `anonymize_face_simple` (`app.py` lines 20–53) -/

/-- The uncaught-exception outcomes of `lambda_handler`, plus the error
kinds of the external collaborators it catches. -/
inductive RuntimeErr where
  /-- `KeyError` escaping `lambda_handler` (no `Records` in the event). -/
  | keyError : RuntimeErr
  /-- `UnboundLocalError` (a `NameError`): `bucket`/`key` referenced in the
  `except KeyError` handler before any assignment. -/
  | nameError : RuntimeErr
  /-- `AttributeError`: `cv2.imread` returned `None` and `.shape` was read. -/
  | attributeError : RuntimeErr
  /-- `cv2.error`: an OpenCV assertion failure (invalid Gaussian kernel). -/
  | cvError : RuntimeErr
deriving DecidableEq, Repr

/-- Python `int(q)` for a rational: truncation toward zero. -/
def pyInt (q : ℚ) : Int := Int.tdiv q.num (q.den : Int)

/-- The kernel-size computation of `anonymize_face_simple` (lines 39–49):
`kW = int(w / factor)`, `kH = int(h / factor)`, then decrement each by 1
if even. -/
def blurKernel (h w : Nat) (factor : ℚ) : Int × Int :=
  let kW := pyInt ((w : ℚ) / factor)
  let kH := pyInt ((h : ℚ) / factor)
  (if Int.emod kW 2 = 0 then kW - 1 else kW,
   if Int.emod kH 2 = 0 then kH - 1 else kH)

/-- Modelled from the spec: `cv2.GaussianBlur(image, (kW, kH), 0)` is an
external collaborator; per the spec (§4.1) and the OpenCV contract, with
sigma 0 each kernel dimension must be a positive odd integer, otherwise the
call fails (an OpenCV assertion error) instead of running the convolution.
The Gaussian convolution content itself is abstracted as the injected
function `conv` (the development never depends on the blurred values). -/
def gaussianBlur (conv : ImageBuffer → Int → Int → ImageBuffer)
    (img : ImageBuffer) (kW kH : Int) : Except RuntimeErr ImageBuffer :=
  if 1 ≤ kW ∧ Int.emod kW 2 = 1 ∧ 1 ≤ kH ∧ Int.emod kH 2 = 1 then
    Except.ok (conv img kW kH)
  else
    Except.error RuntimeErr.cvError

/-- `anonymize_face_simple(image, factor)`: compute the kernel from the
region shape and apply the Gaussian blur (lines 39–53).  The `factor`
argument (a Python float, always the default `3.0` at the call site) is
embedded as an exact rational. -/
def anonymize_face_simple (conv : ImageBuffer → Int → Int → ImageBuffer)
    (image : ImageBuffer) (factor : ℚ) : Except RuntimeErr ImageBuffer :=
  let k := blurKernel (imgHeight image) (imgWidth image) factor
  gaussianBlur conv image k.1 k.2

/-! ## Slicing with Python/numpy index semantics (the face ROI step) -/

/-- Resolve one Python slice index `i` against an axis of length `n`:
negative indices count from the end, and the result is clamped to
`[0, n]` (numpy basic slicing). -/
def npIndex (i : Int) (n : Nat) : Nat :=
  min (if 0 ≤ i then i.toNat else (n + i).toNat) n

/-- The sub-image `image[y1:y2, x1:x2]` with numpy slice semantics. -/
def subImage (img : ImageBuffer) (y1 y2 x1 x2 : Int) : ImageBuffer :=
  let rs := npIndex y1 (imgHeight img)
  let re := npIndex y2 (imgHeight img)
  ((img.drop rs).take (re - rs)).map fun row =>
    let cs := npIndex x1 row.length
    let ce := npIndex x2 row.length
    (row.drop cs).take (ce - cs)

/-- The assignment `image[y1:y2, x1:x2] = face`: write `face` back over the
slice.  (In the source the shapes always agree — both variants return a
region of the slice's dimensions — so the fallback that keeps the old pixel
when `face` has no entry is never exercised.) -/
def writeBack (img : ImageBuffer) (y1 y2 x1 x2 : Int) (face : ImageBuffer) :
    ImageBuffer :=
  let rs := npIndex y1 (imgHeight img)
  let re := npIndex y2 (imgHeight img)
  mapWithIdx
    (fun y row =>
      if rs ≤ y ∧ y < re then
        let cs := npIndex x1 row.length
        let ce := npIndex x2 row.length
        mapWithIdx
          (fun x p =>
            if cs ≤ x ∧ x < ce then
              getPixel face (y - rs) (x - cs)
            else p)
          0 row
      else row)
    0 img

/-! ## String plumbing of the handler -/

/-- Python `str.split(sep)` for a one-character separator, on a character
list: always returns at least one (possibly empty) chunk. -/
def splitOnChar (sep : Char) : List Char → List (List Char)
  | [] => [[]]
  | c :: rest =>
    match splitOnChar sep rest with
    | [] => [[c]]
    | g :: gs => if c = sep then [] :: g :: gs else (c :: g) :: gs

/-- Python `s.split(sep)` on strings. -/
def splitOnCharS (sep : Char) (s : String) : List String :=
  (splitOnChar sep s.data).map String.mk

/-- Hex-digit value used by percent-decoding. -/
def hexVal (c : Char) : Nat :=
  if '0' ≤ c ∧ c ≤ '9' then c.toNat - '0'.toNat
  else if 'a' ≤ c ∧ c ≤ 'f' then c.toNat - 'a'.toNat + 10
  else if 'A' ≤ c ∧ c ≤ 'F' then c.toNat - 'A'.toNat + 10
  else 0

/-- Whether a character is a hexadecimal digit. -/
def isHexDigit (c : Char) : Bool :=
  ('0' ≤ c ∧ c ≤ '9') ∨ ('a' ≤ c ∧ c ≤ 'f') ∨ ('A' ≤ c ∧ c ≤ 'F')

/-- `urllib.parse.unquote_plus` on a character list: `+` becomes a space and
`%XX` (two hex digits) becomes the character with that code.  (Multi-byte
UTF-8 percent sequences are beyond the keys exercised here.) -/
def unquoteChars : List Char → List Char
  | [] => []
  | '+' :: rest => ' ' :: unquoteChars rest
  | '%' :: a :: b :: rest =>
    if isHexDigit a ∧ isHexDigit b then
      Char.ofNat (16 * hexVal a + hexVal b) :: unquoteChars rest
    else '%' :: unquoteChars (a :: b :: rest)
  | c :: rest => c :: unquoteChars rest

/-- `urllib.parse.unquote_plus(key)`. -/
def unquote_plus (s : String) : String := String.mk (unquoteChars s.data)

/-- `key.split('/')[-1]` then `'/tmp/{}'.format(filename)` (lines 111–112). -/
def localFilename (key : String) : String :=
  "/tmp/" ++ (splitOnCharS '/' key).getLastD ""

/-! ## The records, outcomes and environment of `lambda_handler` -/

/-- One S3 change-notification record, reduced to the three fields the
handler reads; `none` models an absent key (a `KeyError` on access). -/
structure SRecord where
  bucket : Option String
  key : Option String
  size : Option Nat
deriving DecidableEq, Repr

/-- The Lambda event: `event['Records']` may be absent entirely. -/
structure EventIn where
  records : Option (List SRecord)
deriving DecidableEq, Repr

/-- A `successful_records` entry (lines 193–196). -/
structure SuccessRec where
  bucket : String
  key : String
deriving DecidableEq, Repr

/-- A `failed_records` entry (lines 210–215). -/
structure FailureRec where
  bucket : String
  key : String
  error_message : String
deriving DecidableEq, Repr

/-- `add_failed(bucket, error_message, failed_records, key)`: append one
failure entry (the source mutates the list in place). -/
def add_failed (bucket : String) (error_message : String)
    (failed_records : List FailureRec) (key : String) : List FailureRec :=
  failed_records ++ [⟨bucket, key, error_message⟩]

/-- The returned batch result (line 198–207).  The body's `cv2_version`
string and its JSON serialization carry no claim content and are omitted. -/
structure BatchResult where
  statusCode : Nat
  failed_records : List FailureRec
  successful_records : List SuccessRec
deriving DecidableEq, Repr

/-- `botocore.exceptions.ClientError` from `s3.download_file`. -/
inductive DownloadErr where
  | clientError : DownloadErr
deriving DecidableEq, Repr

/-- The two Rekognition exceptions the handler catches. -/
inductive DetectErr where
  | accessDeniedException : DetectErr
  | invalidS3ObjectException : DetectErr
deriving DecidableEq, Repr

/-- `boto3.exceptions.S3UploadFailedError` from `s3.upload_file`. -/
inductive UploadErr where
  | s3UploadFailedError : UploadErr
deriving DecidableEq, Repr

/-- A face bounding box as returned by Rekognition: fractions of the image
dimensions (Python floats, embedded as exact rationals). -/
structure FaceBox where
  left : ℚ
  top : ℚ
  width : ℚ
  height : ℚ

/-- The handler's environment: the process-wide configuration
(`BLUR_TYPE`, `OUTPUT_BUCKET`) and the external collaborators, injected as
functions of their call arguments.  `none`/`Except.ok` model a call that
returns, `some e`/`Except.error e` a call that raises `e`. -/
structure Env where
  blurType : String
  outputBucket : String
  download : String → String → String → Option DownloadErr
  imread : String → Option ImageBuffer
  detectFaces : String → String → Except DetectErr (List FaceBox)
  upload : String → String → String → Option UploadErr
  conv : ImageBuffer → Int → Int → ImageBuffer

/-- Error message of line 114. -/
def msgMalformed : String :=
  "Lambda invoked without S3 event data. Event needs to reference a S3 bucket and object key."

/-- Error message of line 120. -/
def msgSize : String :=
  "Maximum image size stored as an Amazon S3 object is limited to 15 MB for Amazon Rekognition."

/-- Error message of line 126. -/
def msgType : String :=
  "Unsupported file type. Amazon Rekognition Image currently supports the JPEG and PNG image formats."

/-- Error message of line 134. -/
def msgFetch : String :=
  "Lambda role does not have permission to call GetObject for the input S3 bucket, or object does not exist."

/-- Error message of line 147. -/
def msgDetectAccess : String :=
  "Lambda role does not have permission to call DetectFaces in Amazon Rekognition."

/-- Error message of line 153. -/
def msgDetectInvalid : String :=
  "Unable to get object metadata from S3. Check object key, region and/or access permissions for input S3 bucket."

/-- Error message of line 185. -/
def msgUpload : String :=
  "Lambda role does not have permission to call PutObject for the output S3 bucket."

/-- The mutable state of the `for record in event['Records']` loop: the
Python local variables `bucket` and `key` (which survive across iterations
— `none` models "not yet bound"), the set of files existing under `/tmp`,
and the two outcome accumulators. -/
structure LoopSt where
  bucketVar : Option String
  keyVar : Option String
  files : List String
  succ : List SuccessRec
  fail : List FailureRec
deriving DecidableEq, Repr

/-- The loop state at handler entry: no locals bound, no files, empty
accumulators. -/
def initSt : LoopSt := ⟨none, none, [], [], []⟩

/-! ## The per-record pipeline and the batch loop (lines 99–207) -/

/-- Lines 161–164: resolve one Rekognition bounding box against the image
dimensions, `x1 = int(Left*W)`, `x2 = x1 + int(Width*W)`, and likewise for
`y` (no clamping). -/
def resolveRect (f : FaceBox) (W H : Nat) : Int × Int × Int × Int :=
  let x1 := pyInt (f.left * (W : ℚ))
  let x2 := x1 + pyInt (f.width * (W : ℚ))
  let y1 := pyInt (f.top * (H : ℚ))
  let y2 := y1 + pyInt (f.height * (H : ℚ))
  (x1, x2, y1, y2)

/-- Lines 166–176 for one face: extract the ROI `image[y1:y2, x1:x2]`,
anonymize it with the configured variant, and write it back over the same
slice.  The pixelate branch mutates the ROI view in place in the source;
extracting a copy and writing the whole transformed region back is
equivalent, since the transform never reaches outside the ROI. -/
def applyFaceRect (env : Env) (image : ImageBuffer) (x1 x2 y1 y2 : Int) :
    Except RuntimeErr ImageBuffer :=
  let face := subImage image y1 y2 x1 x2
  match
    (if env.blurType = "pixelate" then
      Except.ok (anonymize_face_pixelate face 10)
    else
      anonymize_face_simple env.conv face 3) with
  | Except.error e => Except.error e
  | Except.ok face2 => Except.ok (writeBack image y1 y2 x1 x2 face2)

/-- The `for detected_face in response['FaceDetails']` loop (lines
158–176), with the image dimensions read once before the loop (line 139). -/
def applyFaces (env : Env) (W H : Nat) :
    ImageBuffer → List FaceBox → Except RuntimeErr ImageBuffer
  | image, [] => Except.ok image
  | image, f :: fs =>
    let r := resolveRect f W H
    match applyFaceRect env image r.1 r.2.1 r.2.2.1 r.2.2.2 with
    | Except.error e => Except.error e
    | Except.ok image2 => applyFaces env W H image2 fs

/-- The `except KeyError` handler (lines 113–116): call
`add_failed(bucket, error_message, failed_records, key)` and `continue`.
`bucket` and `key` hold whatever the loop variables hold — if either was
never assigned, referencing it raises `UnboundLocalError` (a `NameError`)
which escapes the handler. -/
def parseFailed (st : LoopSt) : Except RuntimeErr LoopSt :=
  match st.bucketVar, st.keyVar with
  | some b, some k =>
    Except.ok { st with fail := add_failed b msgMalformed st.fail k }
  | _, _ => Except.error RuntimeErr.nameError

/-- One iteration of the record loop (lines 103–196): the Record Processor
state machine.  Field accesses inside the `try` assign the loop variables
one at a time, so a later `KeyError` still sees the earlier assignments. -/
def processRecord (env : Env) (st : LoopSt) (r : SRecord) :
    Except RuntimeErr LoopSt :=
  match r.bucket with
  | none => parseFailed st
  | some bucket =>
    let st := { st with bucketVar := some bucket }
    match r.key with
    | none => parseFailed st
    | some rawKey =>
      let key := unquote_plus rawKey
      let st := { st with keyVar := some key }
      match r.size with
      | none => parseFailed st
      | some size =>
        let local_filename := localFilename key
        if size > 15728640 then
          Except.ok { st with fail := add_failed bucket msgSize st.fail key }
        else if ¬ ((splitOnCharS '.' local_filename).getLastD "" ∈
            ["png", "jpeg", "jpg"]) then
          Except.ok { st with fail := add_failed bucket msgType st.fail key }
        else
          match env.download bucket key local_filename with
          | some _ =>
            Except.ok
              { st with fail := add_failed bucket msgFetch st.fail key }
          | none =>
            -- the download created the local working file
            let st := { st with
              files := if local_filename ∈ st.files then st.files
                       else st.files ++ [local_filename] }
            match env.imread local_filename with
            | none =>
              -- `cv2.imread` returned None; `image.shape` raises
              Except.error RuntimeErr.attributeError
            | some image =>
              let image_height := imgHeight image
              let image_width := imgWidth image
              match env.detectFaces bucket key with
              | Except.error DetectErr.accessDeniedException =>
                Except.ok { st with
                  fail := add_failed bucket msgDetectAccess st.fail key }
              | Except.error DetectErr.invalidS3ObjectException =>
                Except.ok { st with
                  fail := add_failed bucket msgDetectInvalid st.fail key }
              | Except.ok faces =>
                match applyFaces env image_width image_height image faces with
                | Except.error e => Except.error e
                | Except.ok _image2 =>
                  -- line 179: `cv2.imwrite` rewrites the existing local
                  -- file; the set of files is unchanged
                  match env.upload local_filename env.outputBucket key with
                  | some _ =>
                    Except.ok { st with
                      fail := add_failed bucket msgUpload st.fail key }
                  | none =>
                    -- lines 190–191: remove the local file if it exists
                    let st := { st with
                      files := if local_filename ∈ st.files then
                          st.files.filter (fun f => f ≠ local_filename)
                        else st.files }
                    Except.ok { st with
                      succ := st.succ ++ [⟨bucket, key⟩] }

/-- The `for record in event['Records']` loop: thread the loop state
through the records; an uncaught exception aborts the whole handler. -/
def runLoop (env : Env) : LoopSt → List SRecord → Except RuntimeErr LoopSt
  | st, [] => Except.ok st
  | st, r :: rs =>
    match processRecord env st r with
    | Except.error e => Except.error e
    | Except.ok st' => runLoop env st' rs

/-- `lambda_handler(event, context)` (lines 99–207): iterate the records
(`KeyError` if the event has no `Records` key) and return the
`statusCode 200` batch result with the two accumulated outcome lists. -/
def lambda_handler (env : Env) (event : EventIn) :
    Except RuntimeErr BatchResult :=
  match event.records with
  | none => Except.error RuntimeErr.keyError
  | some records =>
    match runLoop env initSt records with
    | Except.error e => Except.error e
    | Except.ok st => Except.ok ⟨200, st.fail, st.succ⟩

/-! ## Concrete fixtures used by counterexamples and witnesses -/

/-- An environment in which every collaborator call succeeds: pixelate
variant, a 1×1 decoded image, no faces detected. -/
def env0 : Env where
  blurType := "pixelate"
  outputBucket := "out"
  download := fun _ _ _ => none
  imread := fun _ => some [[(1, 2, 3)]]
  detectFaces := fun _ _ => Except.ok []
  upload := fun _ _ _ => none
  conv := fun img _ _ => img

/-- `env0` but `cv2.imread` fails to decode (returns `None`). -/
def envDecode : Env := { env0 with imread := fun _ => none }

/-- `env0` but `detect_faces` raises `AccessDeniedException`. -/
def envDetect : Env :=
  { env0 with
    detectFaces := fun _ _ => Except.error DetectErr.accessDeniedException }

/-- `env0` but `upload_file` raises `S3UploadFailedError`. -/
def envUpload : Env :=
  { env0 with upload := fun _ _ _ => some UploadErr.s3UploadFailedError }

/-- A well-formed record within the size limit, with a supported suffix. -/
def recGood : SRecord := ⟨some "b", some "pic.png", some 100⟩

/-- A record with no S3 reference at all (every field access raises
`KeyError`). -/
def recEmpty : SRecord := ⟨none, none, none⟩

/-- A well-formed record declaring a 16,000,000-byte object. -/
def recBig : SRecord := ⟨some "b2", some "big.png", some 16000000⟩

/-- A 4×4 region made of four flat 2×2 quadrants of distinct colors. -/
def img4 : ImageBuffer :=
  [[(0, 0, 0), (0, 0, 0), (100, 100, 100), (100, 100, 100)],
   [(0, 0, 0), (0, 0, 0), (100, 100, 100), (100, 100, 100)],
   [(40, 40, 40), (40, 40, 40), (200, 200, 200), (200, 200, 200)],
   [(40, 40, 40), (40, 40, 40), (200, 200, 200), (200, 200, 200)]]

/-- A single-pixel region with a non-black pixel. -/
def img1 : ImageBuffer := [[(7, 7, 7)]]

/-- A 2×2 region with four distinct pixels. -/
def img2x2 : ImageBuffer := [[(1, 2, 3), (4, 5, 6)], [(7, 8, 9), (10, 11, 12)]]

/-- A convolution stand-in satisfying the collaborator contract (same
dimensions); used only to instantiate witnesses. -/
def conv0 : ImageBuffer → Int → Int → ImageBuffer := fun img _ _ => img

/-- A flat 9×9 region (blur kernel 9/3 = 3, odd). -/
def img9 : ImageBuffer := flatImage 9 9 (5, 5, 5)

/-- Project the success component of a tagged per-record outcome. -/
def outSucc : SuccessRec ⊕ FailureRec → Option SuccessRec
  | Sum.inl s => some s
  | Sum.inr _ => none

/-- Project the failure component of a tagged per-record outcome. -/
def outFail : SuccessRec ⊕ FailureRec → Option FailureRec
  | Sum.inl _ => none
  | Sum.inr f => some f

/-! ## Helper lemmas -/

theorem length_mapWithIdx (f : Nat → α → β) (k : Nat) (l : List α) :
    (mapWithIdx f k l).length = l.length := by
  induction l generalizing k with
  | nil => rfl
  | cons a as ih => simp [mapWithIdx, ih]

theorem getD_mapWithIdx (f : Nat → α → β) (k n : Nat) (l : List α) (d : β)
    (d' : α) (h : n < l.length) :
    (mapWithIdx f k l).getD n d = f (k + n) (l.getD n d') := by
  induction l generalizing k n with
  | nil => simp at h
  | cons a as ih =>
    cases n with
    | zero => simp [mapWithIdx]
    | succ m =>
      simp only [mapWithIdx, List.getD_cons_succ]
      rw [ih (k + 1) m (by simpa using h)]
      ring_nf

theorem getD_mapWithIdx_ge (f : Nat → α → β) (k n : Nat) (l : List α)
    (d : β) (h : l.length ≤ n) :
    (mapWithIdx f k l).getD n d = d := by
  apply List.getD_eq_default
  rw [length_mapWithIdx]
  exact h

theorem mapWithIdx_replicate_self (f : Nat → α → α) (a : α)
    (hf : ∀ m, f m a = a) : ∀ (n k : Nat),
    mapWithIdx f k (List.replicate n a) = List.replicate n a := by
  intro n
  induction n with
  | zero => intro k; rfl
  | succ m ih =>
    intro k
    simp only [List.replicate, mapWithIdx, hf]
    rw [ih]

theorem flatten_replicate_replicate (n m : Nat) (v : α) :
    (List.replicate n (List.replicate m v)).flatten =
      List.replicate (n * m) v := by
  induction n with
  | zero => simp
  | succ k ih =>
    simp only [List.replicate, List.flatten_cons, ih]
    rw [← List.replicate_add]
    congr 1
    ring

theorem foldl_fixed_of_mem (l : List α) (f : β → α → β) (b : β)
    (h : ∀ a ∈ l, f b a = b) : l.foldl f b = b := by
  induction l with
  | nil => rfl
  | cons a as ih =>
    simp only [List.foldl_cons, h a (by simp)]
    exact ih fun x hx => h x (by simp [hx])

theorem sum_split_length (outs : List (SuccessRec ⊕ FailureRec)) :
    (outs.filterMap outSucc).length + (outs.filterMap outFail).length =
      outs.length := by
  induction outs with
  | nil => rfl
  | cons o os ih =>
    cases o with
    | inl s =>
      simp only [List.filterMap_cons, outSucc, outFail, List.length_cons]
      omega
    | inr f =>
      simp only [List.filterMap_cons, outSucc, outFail, List.length_cons]
      omega

theorem processRecord_shape (env : Env) (st : LoopSt) (r : SRecord)
    (st' : LoopSt) (h : processRecord env st r = Except.ok st') :
    (∃ s, st'.succ = st.succ ++ [s] ∧ st'.fail = st.fail) ∨
    (∃ f, st'.succ = st.succ ∧ st'.fail = st.fail ++ [f]) := by
  unfold processRecord parseFailed at h
  dsimp only at h
  repeat' split at h
  all_goals
    first
      | exact Except.noConfusion h
      | (injection h with h; subst h;
          first
            | exact Or.inr ⟨_, rfl, rfl⟩
            | exact Or.inl ⟨_, rfl, rfl⟩)

theorem runLoop_shape (env : Env) : ∀ (rs : List SRecord) (st st' : LoopSt),
    runLoop env st rs = Except.ok st' →
    ∃ outs : List (SuccessRec ⊕ FailureRec),
      outs.length = rs.length ∧
      st'.succ = st.succ ++ outs.filterMap outSucc ∧
      st'.fail = st.fail ++ outs.filterMap outFail := by
  intro rs
  induction rs with
  | nil =>
    intro st st' h
    injection h with h
    subst h
    exact ⟨[], rfl, by simp, by simp⟩
  | cons r rs ih =>
    intro st st' h
    unfold runLoop at h
    cases hp : processRecord env st r with
    | error e => rw [hp] at h; exact Except.noConfusion h
    | ok st1 =>
      rw [hp] at h
      obtain ⟨outs, hlen, hsucc, hfail⟩ := ih st1 st' h
      rcases processRecord_shape env st r st1 hp with ⟨s, hs1, hs2⟩ | ⟨f, hf1, hf2⟩
      · refine ⟨Sum.inl s :: outs, by simp [hlen], ?_, ?_⟩
        · rw [hsucc, hs1]; simp [List.filterMap_cons, outSucc]
        · rw [hfail, hs2]; simp [List.filterMap_cons, outFail]
      · refine ⟨Sum.inr f :: outs, by simp [hlen], ?_, ?_⟩
        · rw [hsucc, hf1]; simp [List.filterMap_cons, outSucc]
        · rw [hfail, hf2]; simp [List.filterMap_cons, outFail]

/-- C9: for every batch of N records of which M yield Failure, a returned
BatchResult contains exactly N−M success entries and M failure entries,
both lists ordered by input processing order (they are the two projections
of the single ordered per-record outcome sequence `outs`), and the
transport-level status code is always the fixed success value 200. -/
theorem batch_result_shape (env : Env) (event : EventIn) (res : BatchResult)
    (h : lambda_handler env event = Except.ok res) :
    res.statusCode = 200 ∧
    ∃ outs : List (SuccessRec ⊕ FailureRec),
      outs.length = (event.records.getD []).length ∧
      res.successful_records = outs.filterMap outSucc ∧
      res.failed_records = outs.filterMap outFail ∧
      res.successful_records.length + res.failed_records.length =
        (event.records.getD []).length := by
  unfold lambda_handler at h
  cases hrec : event.records with
  | none => rw [hrec] at h; exact Except.noConfusion h
  | some records =>
    rw [hrec] at h
    dsimp only at h
    cases hrun : runLoop env initSt records with
    | error e => rw [hrun] at h; exact Except.noConfusion h
    | ok st =>
      rw [hrun] at h
      injection h with h
      subst h
      obtain ⟨outs, hlen, hsucc, hfail⟩ :=
        runLoop_shape env records initSt st hrun
      simp only [initSt, List.nil_append] at hsucc hfail
      refine ⟨rfl, outs, by simp [hlen], by simpa using hsucc,
        by simpa using hfail, ?_⟩
      have hsum := sum_split_length outs
      simp only [hrec, Option.getD_some]
      rw [hsucc, hfail, ← hlen]
      exact hsum

/-- Witness for C9: the claim theorem applied to the concrete two-record
batch `[recGood, recBig]` (one success, one size-limit failure) in `env0`. -/
theorem batch_result_shape_witness :
    (⟨200, [⟨"b2", "big.png", msgSize⟩], [⟨"b", "pic.png"⟩]⟩ :
        BatchResult).statusCode = 200 ∧
    ∃ outs : List (SuccessRec ⊕ FailureRec),
      outs.length =
        ((⟨some [recGood, recBig]⟩ : EventIn).records.getD []).length ∧
      ([⟨"b", "pic.png"⟩] : List SuccessRec) = outs.filterMap outSucc ∧
      ([⟨"b2", "big.png", msgSize⟩] : List FailureRec) =
        outs.filterMap outFail ∧
      ([⟨"b", "pic.png"⟩] : List SuccessRec).length +
          ([⟨"b2", "big.png", msgSize⟩] : List FailureRec).length =
        ((⟨some [recGood, recBig]⟩ : EventIn).records.getD []).length :=
  batch_result_shape env0 ⟨some [recGood, recBig]⟩
    ⟨200, [⟨"b2", "big.png", msgSize⟩], [⟨"b", "pic.png"⟩]⟩ rfl

/-- C4 (code bug): a batch whose first record has no S3 reference does not
produce a malformed-event Failure entry; `add_failed(bucket, ...)` is
reached with `bucket` (and `key`) never assigned, so the handler raises an
uncaught `UnboundLocalError` (a `NameError`) instead of returning a
BatchResult. -/
theorem malformed_first_record_raises :
    lambda_handler env0 ⟨some [recEmpty]⟩ =
      Except.error RuntimeErr.nameError := rfl

/-- C5 counterexample: an event with no records collection at all does not
yield an empty BatchResult — `event['Records']` raises an uncaught
`KeyError`. -/
theorem missing_records_raises_cex :
    lambda_handler env0 ⟨none⟩ = Except.error RuntimeErr.keyError := rfl

/-- C5 (amended): an **empty** records list yields the empty BatchResult
with status 200, but a **missing** records collection raises an uncaught
`KeyError` out of `lambda_handler`. -/
theorem empty_records_ok (env : Env) :
    lambda_handler env ⟨some []⟩ = Except.ok ⟨200, [], []⟩ ∧
    lambda_handler env ⟨none⟩ = Except.error RuntimeErr.keyError :=
  ⟨rfl, rfl⟩

/-- C1 counterexample: in an environment where the fetch succeeds but the
fetched bytes do not decode (`cv2.imread` returns `None`), the batch call
does not return a BatchResult: reading `image.shape` raises an uncaught
`AttributeError` that propagates out of `lambda_handler`. -/
theorem decode_failure_escapes_cex :
    lambda_handler envDecode ⟨some [recGood]⟩ =
      Except.error RuntimeErr.attributeError := rfl

/-- C2 counterexample: a record that reaches the fetch step and then fails
at the detector exits with the local working file `/tmp/pic.png` still
present in the loop state — the cleanup of lines 190–191 is only on the
success path. -/
theorem cleanup_skipped_cex :
    runLoop envDetect initSt [recGood] =
      Except.ok ⟨some "b", some "pic.png", ["/tmp/pic.png"], [],
        [⟨"b", "pic.png", msgDetectAccess⟩]⟩ := rfl

/-- C6 counterexample: pixelating this 4×4 region twice with `blocks = 2`
does not reproduce the single application: each cell's endpoint-inclusive
fill bleeds one pixel into the next cell's slice, so the second pass
averages over already-overwritten pixels and changes the colors again. -/
theorem pixelate_not_idempotent_cex :
    anonymize_face_pixelate (anonymize_face_pixelate img4 2) 2 ≠
      anonymize_face_pixelate img4 2 := by decide

/-- C7 counterexample: on a 1×1 region with `blocks = 2` the boundary
coordinates repeat, and the degenerate cells are not no-ops — the mean of
an empty slice is 0 and `cv2.rectangle` still fills the (endpoint-inclusive)
degenerate rectangle, painting the pixel black; were every degenerate cell
a no-op and the one non-degenerate cell filled with the mean of its own
pixel (7,7,7), the region would be unchanged. -/
theorem degenerate_cell_paints_black_cex :
    anonymize_face_pixelate img1 2 = [[(0, 0, 0)]] ∧
      ([[(0, 0, 0)]] : ImageBuffer) ≠ img1 :=
  ⟨rfl, by decide⟩

/-- C10: (a) when the first record of a batch lacks its S3 reference, the
`except KeyError` handler references the never-assigned loop variable
`bucket`, so `lambda_handler` raises an uncaught `UnboundLocalError` (a
`NameError`) instead of recording a Failure; (b) when a later record is
malformed, its Failure entry carries the bucket and key parsed from the
most recent earlier record that parsed successfully (here a record that
parsed and then failed the size check), not from the malformed record. -/
theorem stale_reference_on_malformed :
    (∀ (env : Env) (rest : List SRecord),
      lambda_handler env ⟨some (recEmpty :: rest)⟩ =
        Except.error RuntimeErr.nameError) ∧
    (∀ (env : Env) (b rawKey : String) (sz : Nat), sz > 15728640 →
      lambda_handler env ⟨some [⟨some b, some rawKey, some sz⟩, recEmpty]⟩ =
        Except.ok ⟨200, [⟨b, unquote_plus rawKey, msgSize⟩,
          ⟨b, unquote_plus rawKey, msgMalformed⟩], []⟩) := by
  constructor
  · intro env rest
    rfl
  · intro env b rawKey sz hsz
    have hsz' : (sz > 15728640) = True := eq_true hsz
    simp only [lambda_handler, runLoop, processRecord, parseFailed,
      add_failed, initSt, recEmpty, hsz', if_true, List.nil_append,
      List.singleton_append]

/-- Witness for C10: both conjuncts applied at concrete inputs (`env0`;
size 16,000,000 > 15,728,640). -/
theorem stale_reference_on_malformed_witness :
    lambda_handler env0 ⟨some (recEmpty :: [])⟩ =
      Except.error RuntimeErr.nameError ∧
    lambda_handler env0
        ⟨some [⟨some "b2", some "big.png", some 16000000⟩, recEmpty]⟩ =
      Except.ok ⟨200, [⟨"b2", "big.png", msgSize⟩,
        ⟨"b2", "big.png", msgMalformed⟩], []⟩ :=
  ⟨stale_reference_on_malformed.1 env0 [],
   stale_reference_on_malformed.2 env0 "b2" "big.png" 16000000 (by decide)⟩

/-- C1 (amended): a decode failure is **not** converted into a per-record
Failure outcome: when every check up to the fetch passes and `cv2.imread`
returns `None`, the loop aborts with an uncaught `AttributeError` (from
`image.shape`), regardless of any remaining records. -/
theorem decode_failure_escapes (env : Env) (st : LoopSt)
    (rest : List SRecord) (b rawKey : String) (sz : Nat)
    (hsz : ¬ sz > 15728640)
    (hext : (splitOnCharS '.' (localFilename (unquote_plus rawKey))).getLastD
        "" ∈ (["png", "jpeg", "jpg"] : List String))
    (hdl : env.download b (unquote_plus rawKey)
        (localFilename (unquote_plus rawKey)) = none)
    (him : env.imread (localFilename (unquote_plus rawKey)) = none) :
    runLoop env st (⟨some b, some rawKey, some sz⟩ :: rest) =
      Except.error RuntimeErr.attributeError := by
  have hsz' : (sz > 15728640) = False := eq_false hsz
  have hext' :
      ((splitOnCharS '.' (localFilename (unquote_plus rawKey))).getLastD ""
        ∉ (["png", "jpeg", "jpg"] : List String)) = False :=
    eq_false (not_not_intro hext)
  simp only [runLoop, processRecord, hsz', hext', if_false, hdl, him]

/-- Witness for C1's amended theorem at the concrete record `recGood` in
`envDecode`. -/
theorem decode_failure_escapes_witness :
    runLoop envDecode initSt [⟨some "b", some "pic.png", some 100⟩] =
      Except.error RuntimeErr.attributeError :=
  decode_failure_escapes envDecode initSt [] "b" "pic.png" 100
    (by decide) (by decide) rfl rfl

/-- C2 (amended): the local working file is deleted only on the success
path.  After a record passes parse/size/type and the fetch succeeds, (i) if
detection and the store succeed the file is removed before the success
entry is appended (final file set = the initial one), but (ii) if the store
fails the record exits with the file still present.  (The counterexample
shows the same leak on the detector-failure path, and the decode crash also
leaves the file.) -/
theorem cleanup_only_on_success (env : Env) (st : LoopSt)
    (b rawKey : String) (sz : Nat)
    (hnf : localFilename (unquote_plus rawKey) ∉ st.files)
    (hsz : ¬ sz > 15728640)
    (hext : (splitOnCharS '.' (localFilename (unquote_plus rawKey))).getLastD
        "" ∈ (["png", "jpeg", "jpg"] : List String))
    (hdl : env.download b (unquote_plus rawKey)
        (localFilename (unquote_plus rawKey)) = none)
    (img : ImageBuffer)
    (him : env.imread (localFilename (unquote_plus rawKey)) = some img)
    (hdet : env.detectFaces b (unquote_plus rawKey) = Except.ok []) :
    (env.upload (localFilename (unquote_plus rawKey)) env.outputBucket
        (unquote_plus rawKey) = none →
      processRecord env st ⟨some b, some rawKey, some sz⟩ =
        Except.ok { st with
          bucketVar := some b
          keyVar := some (unquote_plus rawKey)
          succ := st.succ ++ [⟨b, unquote_plus rawKey⟩] }) ∧
    (∀ e, env.upload (localFilename (unquote_plus rawKey)) env.outputBucket
        (unquote_plus rawKey) = some e →
      processRecord env st ⟨some b, some rawKey, some sz⟩ =
        Except.ok { st with
          bucketVar := some b
          keyVar := some (unquote_plus rawKey)
          files := st.files ++ [localFilename (unquote_plus rawKey)]
          fail := st.fail ++ [⟨b, unquote_plus rawKey, msgUpload⟩] }) := by
  have hsz' : (sz > 15728640) = False := eq_false hsz
  have hext' :
      ((splitOnCharS '.' (localFilename (unquote_plus rawKey))).getLastD ""
        ∉ (["png", "jpeg", "jpg"] : List String)) = False :=
    eq_false (not_not_intro hext)
  have hnf' : (localFilename (unquote_plus rawKey) ∈ st.files) = False :=
    eq_false hnf
  have hmem : (localFilename (unquote_plus rawKey) ∈
      st.files ++ [localFilename (unquote_plus rawKey)]) = True :=
    eq_true (by simp)
  have hfilter : (st.files ++ [localFilename (unquote_plus rawKey)]).filter
      (fun f => f ≠ localFilename (unquote_plus rawKey)) = st.files := by
    rw [List.filter_append]
    have h1 : st.files.filter
        (fun f => f ≠ localFilename (unquote_plus rawKey)) = st.files :=
      List.filter_eq_self.mpr fun a ha => by
        simp only [ne_eq, decide_not, Bool.not_eq_true']
        exact decide_eq_false fun hEq => hnf (hEq ▸ ha)
    have h2 : ([localFilename (unquote_plus rawKey)] : List String).filter
        (fun f => f ≠ localFilename (unquote_plus rawKey)) = [] := by simp
    rw [h1, h2, List.append_nil]
  constructor
  · intro hup
    simp only [processRecord, hsz', hext', if_false, hdl, him, hdet, hup,
      applyFaces, hnf', hmem, if_true, hfilter, add_failed]
  · intro e hup
    simp only [processRecord, hsz', hext', if_false, hdl, him, hdet, hup,
      applyFaces, hnf', hmem, if_true, hfilter, add_failed]

/-- Witness for C2's amended theorem: the store-failure conjunct at the
concrete record `recGood` in `envUpload` — the file `/tmp/pic.png`
remains. -/
theorem cleanup_only_on_success_witness :
    processRecord envUpload initSt ⟨some "b", some "pic.png", some 100⟩ =
      Except.ok ⟨some "b", some "pic.png", ["/tmp/pic.png"], [],
        [⟨"b", "pic.png", msgUpload⟩]⟩ :=
  (cleanup_only_on_success envUpload initSt "b" "pic.png" 100
      (by simp [initSt]) (by decide) (by decide) rfl [[(1, 2, 3)]] rfl
      rfl).2 UploadErr.s3UploadFailedError rfl

theorem roiPixels_of_degenerate (img : ImageBuffer) (sy ey sx ex : Nat)
    (h : sx = ex ∨ sy = ey) : roiPixels img sy ey sx ex = [] := by
  unfold roiPixels
  rcases h with h | h
  · subst h
    simp [Nat.sub_self, List.flatten_eq_nil_iff]
  · subst h
    simp [Nat.sub_self]

/-- C7 (amended): a degenerate grid cell (repeated boundary coordinate, so
a zero-width or zero-height slice) is **not** a no-op: `cv2.mean` of the
empty slice is 0 on every channel, and `cv2.rectangle` still draws the
endpoint-inclusive filled rectangle, so the cell's boundary pixels are
painted black.  (Non-degenerate cells are likewise filled endpoint-
inclusively — one pixel beyond the half-open cell — with the truncated
mean of the pixels currently in the cell's slice.) -/
theorem degenerate_cell_fills_black (img : ImageBuffer)
    (blocks h w i j : Nat)
    (hdeg : linspaceInt w blocks (j - 1) = linspaceInt w blocks j ∨
      linspaceInt h blocks (i - 1) = linspaceInt h blocks i) :
    pixelateCell blocks h w img i j =
      rectangleFill img (linspaceInt w blocks (j - 1))
        (linspaceInt h blocks (i - 1)) (linspaceInt w blocks j)
        (linspaceInt h blocks i) (0, 0, 0) := by
  unfold pixelateCell
  dsimp only
  rw [roiPixels_of_degenerate img _ _ _ _ hdeg]
  rfl

/-- Witness for C7's amended theorem: the first cell of the 1×1 region with
`blocks = 2` is degenerate and is filled black. -/
theorem degenerate_cell_fills_black_witness :
    pixelateCell 2 1 1 img1 1 1 = rectangleFill img1 0 0 0 0 (0, 0, 0) :=
  degenerate_cell_fills_black img1 2 1 1 1 1 (Or.inl (by decide))

theorem linspaceInt_le (len blocks i : Nat) (hb : 0 < blocks)
    (hi : i ≤ blocks) : linspaceInt len blocks i ≤ len := by
  unfold linspaceInt
  calc i * len / blocks ≤ blocks * len / blocks :=
        Nat.div_le_div_right (Nat.mul_le_mul_right len hi)
    _ = len := Nat.mul_div_cancel_left len hb

theorem linspaceInt_lt (len blocks j : Nat) (hb : 0 < blocks)
    (hlen : blocks ≤ len) (hj : 1 ≤ j) :
    linspaceInt len blocks (j - 1) < linspaceInt len blocks j := by
  unfold linspaceInt
  have h0 : (j - 1) * len + len = j * len := by
    cases j with
    | zero => omega
    | succ m => simp [Nat.succ_sub_one, Nat.succ_mul]
  have h1 : (j - 1) * len + blocks ≤ j * len := by omega
  have h2 : ((j - 1) * len + blocks) / blocks = (j - 1) * len / blocks + 1 :=
    Nat.add_div_right _ hb
  have h3 : ((j - 1) * len + blocks) / blocks ≤ j * len / blocks :=
    Nat.div_le_div_right h1
  omega

theorem roiPixels_flatImage (hh ww sy ey sx ex : Nat) (v : Pixel) :
    roiPixels (flatImage hh ww v) sy ey sx ex =
      List.replicate (min (ey - sy) (hh - sy) * min (ex - sx) (ww - sx))
        v := by
  unfold roiPixels flatImage
  rw [List.drop_replicate, List.take_replicate, List.map_replicate,
    List.drop_replicate, List.take_replicate]
  exact flatten_replicate_replicate _ _ v

theorem cvMean3_replicate (n : Nat) (v : Pixel) (hn : n ≠ 0) :
    cvMean3 (List.replicate n v) = v := by
  obtain ⟨a, b, c⟩ := v
  unfold cvMean3
  rw [List.map_replicate, List.map_replicate, List.map_replicate,
    List.sum_replicate, List.sum_replicate, List.sum_replicate,
    List.length_replicate]
  simp only [smul_eq_mul]
  rw [Nat.mul_div_cancel_left a (Nat.pos_of_ne_zero hn),
    Nat.mul_div_cancel_left b (Nat.pos_of_ne_zero hn),
    Nat.mul_div_cancel_left c (Nat.pos_of_ne_zero hn)]

theorem rectangleFill_flat (hh ww sx sy ex ey : Nat) (v : Pixel) :
    rectangleFill (flatImage hh ww v) sx sy ex ey v = flatImage hh ww v := by
  unfold rectangleFill flatImage
  apply mapWithIdx_replicate_self
  intro m
  dsimp only
  split
  · apply mapWithIdx_replicate_self
    intro x
    dsimp only
    split <;> rfl
  · rfl

theorem pixelateCell_flat (hh ww : Nat) (v : Pixel) (blocks i j : Nat)
    (hb : 0 < blocks) (hwb : blocks ≤ ww) (hhb : blocks ≤ hh)
    (hi1 : 1 ≤ i) (hib : i ≤ blocks) (hj1 : 1 ≤ j) (hjb : j ≤ blocks) :
    pixelateCell blocks hh ww (flatImage hh ww v) i j =
      flatImage hh ww v := by
  unfold pixelateCell
  dsimp only
  rw [roiPixels_flatImage]
  have hx := linspaceInt_lt ww blocks j hb hwb hj1
  have hy := linspaceInt_lt hh blocks i hb hhb hi1
  have hxe := linspaceInt_le ww blocks j hb hjb
  have hye := linspaceInt_le hh blocks i hb hib
  have hN : min (linspaceInt hh blocks i - linspaceInt hh blocks (i - 1))
      (hh - linspaceInt hh blocks (i - 1)) *
      min (linspaceInt ww blocks j - linspaceInt ww blocks (j - 1))
      (ww - linspaceInt ww blocks (j - 1)) ≠ 0 := by
    have h1 : 0 < linspaceInt hh blocks i - linspaceInt hh blocks (i - 1) :=
      by omega
    have h2 : 0 < hh - linspaceInt hh blocks (i - 1) := by omega
    have h3 : 0 < linspaceInt ww blocks j - linspaceInt ww blocks (j - 1) :=
      by omega
    have h4 : 0 < ww - linspaceInt ww blocks (j - 1) := by omega
    apply Nat.mul_ne_zero
    · omega
    · omega
  rw [cvMean3_replicate _ v hN]
  exact rectangleFill_flat hh ww _ _ _ _ v

/-- C6 (amended): pixelation is not idempotent in general (see the
counterexample: the endpoint-inclusive fills bleed one pixel into the
following cell's slice, so a second pass averages over altered pixels).
It is the identity — hence idempotent — on a region that is already one
flat color, provided the region is at least `blocks` pixels in each
dimension so that no cell is degenerate. -/
theorem pixelate_flat_fixed (hh ww : Nat) (v : Pixel) (blocks : Nat)
    (hwb : blocks ≤ ww) (hhb : blocks ≤ hh) :
    anonymize_face_pixelate (flatImage hh ww v) blocks =
      flatImage hh ww v := by
  cases blocks with
  | zero => rfl
  | succ bl =>
    have hb : 0 < bl + 1 := Nat.succ_pos bl
    have hH : imgHeight (flatImage hh ww v) = hh := by
      simp [imgHeight, flatImage]
    have hW : imgWidth (flatImage hh ww v) = ww := by
      cases hh with
      | zero => omega
      | succ m =>
        simp [imgWidth, flatImage, List.replicate]
    unfold anonymize_face_pixelate
    dsimp only
    rw [hH, hW]
    apply foldl_fixed_of_mem
    intro i hi
    have hib : 1 ≤ i ∧ i ≤ bl + 1 := by
      simp only [List.mem_map, List.mem_range] at hi
      obtain ⟨a, ha, rfl⟩ := hi
      omega
    apply foldl_fixed_of_mem
    intro j hj
    have hjb : 1 ≤ j ∧ j ≤ bl + 1 := by
      simp only [List.mem_map, List.mem_range] at hj
      obtain ⟨a, ha, rfl⟩ := hj
      omega
    exact pixelateCell_flat hh ww v (bl + 1) i j hb hwb hhb
      hib.1 hib.2 hjb.1 hjb.2

/-- Witness for C6's amended theorem: a flat 4×4 region with `blocks = 2`
is a fixed point of pixelation. -/
theorem pixelate_flat_fixed_witness :
    anonymize_face_pixelate (flatImage 4 4 (9, 9, 9)) 2 =
      flatImage 4 4 (9, 9, 9) :=
  pixelate_flat_fixed 4 4 (9, 9, 9) 2 (by decide) (by decide)

theorem getD_colWrite (row : List Pixel) (x cs ce : Nat) (f : Nat → Pixel)
    (d : Pixel) (hout : x < cs ∨ ce ≤ x) :
    (mapWithIdx (fun x p => if cs ≤ x ∧ x < ce then f x else p) 0 row).getD
      x d = row.getD x d := by
  by_cases hx : x < row.length
  · rw [getD_mapWithIdx _ 0 x row d d hx]
    have hcond : ¬ (cs ≤ 0 + x ∧ 0 + x < ce) := by omega
    rw [if_neg hcond]
  · rw [getD_mapWithIdx_ge _ 0 x row d (by omega),
      List.getD_eq_default _ _ (by omega)]

theorem getPixel_writeBack_outside (img face : ImageBuffer)
    (y1 y2 x1 x2 : Int) (hx2 : 0 ≤ x2) (hy2 : 0 ≤ y2) (y x : Nat)
    (hout : (y : Int) < y1 ∨ y2 ≤ (y : Int) ∨ (x : Int) < x1 ∨
      x2 ≤ (x : Int)) :
    getPixel (writeBack img y1 y2 x1 x2 face) y x = getPixel img y x := by
  unfold writeBack getPixel npIndex imgHeight
  dsimp only
  by_cases hy : y < img.length
  · rw [getD_mapWithIdx _ 0 y img [] [] hy]
    simp only [Nat.zero_add]
    by_cases hcond :
        min (if 0 ≤ y1 then y1.toNat else (img.length + y1).toNat)
            img.length ≤ y ∧
        y < min (if 0 ≤ y2 then y2.toNat else (img.length + y2).toNat)
            img.length
    · rw [if_pos hcond]
      have hxout : (x : Int) < x1 ∨ x2 ≤ (x : Int) := by
        rcases hout with h | h | h | h
        · exfalso
          have h01 : 0 ≤ y1 := le_trans (Int.ofNat_nonneg y) (le_of_lt h)
          rw [if_pos h01] at hcond
          omega
        · exfalso
          rw [if_pos hy2] at hcond
          omega
        · exact Or.inl h
        · exact Or.inr h
      apply getD_colWrite
      rcases hxout with h | h
      · have h01 : 0 ≤ x1 := le_trans (Int.ofNat_nonneg x) (le_of_lt h)
        rw [if_pos h01, if_pos hx2]
        omega
      · rw [if_pos hx2]
        omega
    · rw [if_neg hcond]
  · rw [getD_mapWithIdx_ge _ 0 y img [] (by omega)]
    rw [List.getD_eq_default img [] (by omega)]

/-- C8: for every face rectangle (with the nonnegative coordinates a
detector box in [0,1] produces) and both anonymization variants — pixelate
when `BLUR_TYPE` is `"pixelate"`, Gaussian blur otherwise — every pixel
outside the supplied region `[y1:y2, x1:x2]` is unchanged after the variant
is applied to the extracted ROI and the transformed region is written
back. -/
theorem outside_region_unchanged (env : Env) (image : ImageBuffer)
    (x1 x2 y1 y2 : Int) (hx2 : 0 ≤ x2) (hy2 : 0 ≤ y2) (y x : Nat)
    (hout : (y : Int) < y1 ∨ y2 ≤ (y : Int) ∨ (x : Int) < x1 ∨
      x2 ≤ (x : Int))
    (img2 : ImageBuffer)
    (hok : applyFaceRect env image x1 x2 y1 y2 = Except.ok img2) :
    getPixel img2 y x = getPixel image y x := by
  unfold applyFaceRect at hok
  dsimp only at hok
  by_cases hbt : env.blurType = "pixelate"
  · rw [if_pos hbt] at hok
    dsimp only at hok
    injection hok with hok
    subst hok
    exact getPixel_writeBack_outside image _ y1 y2 x1 x2 hx2 hy2 y x hout
  · rw [if_neg hbt] at hok
    cases hb : anonymize_face_simple env.conv (subImage image y1 y2 x1 x2) 3
      with
    | error e =>
      rw [hb] at hok
      exact Except.noConfusion hok
    | ok f2 =>
      rw [hb] at hok
      dsimp only at hok
      injection hok with hok
      subst hok
      exact getPixel_writeBack_outside image f2 y1 y2 x1 x2 hx2 hy2 y x hout

set_option maxRecDepth 8000 in
/-- Witness for C8: the pixel (1,1) of the 2×2 region, outside the face
rectangle `[0:1, 0:1]`, is unchanged by the pixelate variant in `env0`. -/
theorem outside_region_unchanged_witness :
    getPixel [[(0, 0, 0), (4, 5, 6)], [(7, 8, 9), (10, 11, 12)]] 1 1 =
      getPixel img2x2 1 1 :=
  outside_region_unchanged env0 img2x2 0 1 0 1 (by decide) (by decide) 1 1
    (Or.inr (Or.inl (by decide)))
    [[(0, 0, 0), (4, 5, 6)], [(7, 8, 9), (10, 11, 12)]] rfl

/-- C3: for every region passed to the blur variant, whenever the Gaussian
convolution actually runs (the call returns `ok`) the kernel width and
height used are odd and at least 1; an even computed value is decremented
by exactly 1; and if a computed kernel dimension is ≤ 0 the call fails with
an error instead of proceeding (the decremented kernel −1 fails the
convolution's positive-odd requirement). -/
theorem blur_kernel_odd_or_fails
    (conv : ImageBuffer → Int → Int → ImageBuffer) (image : ImageBuffer)
    (factor : ℚ) (hf : 0 < factor) :
    (∀ res, anonymize_face_simple conv image factor = Except.ok res →
      1 ≤ (blurKernel (imgHeight image) (imgWidth image) factor).1 ∧
      Int.emod (blurKernel (imgHeight image) (imgWidth image) factor).1 2
        = 1 ∧
      1 ≤ (blurKernel (imgHeight image) (imgWidth image) factor).2 ∧
      Int.emod (blurKernel (imgHeight image) (imgWidth image) factor).2 2
        = 1) ∧
    (Int.emod (pyInt ((imgWidth image : ℚ) / factor)) 2 = 0 →
      (blurKernel (imgHeight image) (imgWidth image) factor).1 =
        pyInt ((imgWidth image : ℚ) / factor) - 1) ∧
    (Int.emod (pyInt ((imgHeight image : ℚ) / factor)) 2 = 0 →
      (blurKernel (imgHeight image) (imgWidth image) factor).2 =
        pyInt ((imgHeight image : ℚ) / factor) - 1) ∧
    ((pyInt ((imgWidth image : ℚ) / factor) ≤ 0 ∨
        pyInt ((imgHeight image : ℚ) / factor) ≤ 0) →
      ∃ e, anonymize_face_simple conv image factor = Except.error e) := by
  refine ⟨?_, ?_, ?_, ?_⟩
  · intro res h
    unfold anonymize_face_simple gaussianBlur at h
    dsimp only at h
    by_cases hcond :
        1 ≤ (blurKernel (imgHeight image) (imgWidth image) factor).1 ∧
        Int.emod (blurKernel (imgHeight image) (imgWidth image) factor).1 2
          = 1 ∧
        1 ≤ (blurKernel (imgHeight image) (imgWidth image) factor).2 ∧
        Int.emod (blurKernel (imgHeight image) (imgWidth image) factor).2 2
          = 1
    · exact hcond
    · rw [if_neg hcond] at h
      exact Except.noConfusion h
  · intro h
    unfold blurKernel
    dsimp only
    rw [if_pos h]
  · intro h
    unfold blurKernel
    dsimp only
    rw [if_pos h]
  · intro h
    have hgate :
        ¬ (1 ≤ (blurKernel (imgHeight image) (imgWidth image) factor).1 ∧
          Int.emod (blurKernel (imgHeight image) (imgWidth image) factor).1
            2 = 1 ∧
          1 ≤ (blurKernel (imgHeight image) (imgWidth image) factor).2 ∧
          Int.emod (blurKernel (imgHeight image) (imgWidth image) factor).2
            2 = 1) := by
      unfold blurKernel
      dsimp only
      rcases h with h | h
      · intro hcon
        have h1 := hcon.1
        by_cases he :
            Int.emod (pyInt ((imgWidth image : ℚ) / factor)) 2 = 0
        · rw [if_pos he] at h1; omega
        · rw [if_neg he] at h1; omega
      · intro hcon
        have h1 := hcon.2.2.1
        by_cases he :
            Int.emod (pyInt ((imgHeight image : ℚ) / factor)) 2 = 0
        · rw [if_pos he] at h1; omega
        · rw [if_neg he] at h1; omega
    refine ⟨RuntimeErr.cvError, ?_⟩
    unfold anonymize_face_simple gaussianBlur
    dsimp only
    rw [if_neg hgate]

/-- Witness for C3: on a 9×9 region with factor 3 the computed kernel is
(3,3) — odd and ≥ 1 — and the blur call succeeds. -/
theorem blur_kernel_odd_or_fails_witness :
    anonymize_face_simple conv0 img9 3 = Except.ok img9 ∧
    (1 ≤ (blurKernel (imgHeight img9) (imgWidth img9) 3).1 ∧
     Int.emod (blurKernel (imgHeight img9) (imgWidth img9) 3).1 2 = 1 ∧
     1 ≤ (blurKernel (imgHeight img9) (imgWidth img9) 3).2 ∧
     Int.emod (blurKernel (imgHeight img9) (imgWidth img9) 3).2 2 = 1) := by
  have hdim : imgHeight img9 = 9 ∧ imgWidth img9 = 9 := by
    constructor
    · simp [imgHeight, img9, flatImage]
    · simp [imgWidth, img9, flatImage, List.replicate_succ]
  have hk : blurKernel (imgHeight img9) (imgWidth img9) 3 = (3, 3) := by
    rw [hdim.1, hdim.2]
    unfold blurKernel
    norm_num [pyInt]
  have h1 : anonymize_face_simple conv0 img9 3 = Except.ok img9 := by
    unfold anonymize_face_simple
    rw [hk]
    unfold gaussianBlur
    norm_num [conv0]
  exact ⟨h1,
    (blur_kernel_odd_or_fails conv0 img9 3 (by norm_num)).1 img9 h1⟩

/-- Witness for C5's amended theorem at the concrete environment `env0`. -/
theorem empty_records_ok_witness :
    lambda_handler env0 ⟨some []⟩ = Except.ok ⟨200, [], []⟩ ∧
    lambda_handler env0 ⟨none⟩ = Except.error RuntimeErr.keyError :=
  empty_records_ok env0
